import Mathlib

/-
Verification of the discord-bot repository's core subsystems against its
specification: the authorization layer (cogs/auth_cog.py), the coalesced
persistence queue (cogs/auth_cog.py), the voice sink (voice/sink.py), the
wake-word/command parser (voice/handler.py) and the TTS service
(services/tts_service.py), shallowly embedded as executable Lean functions.
-/

namespace DiscordBot

/-! ## Association-list helpers

Python dicts are modelled as association lists; lookup returns the first
binding, assignment replaces an existing binding or appends a new one. -/

/-- Lookup in an association list (model of `d.get(k)` / `d[k]`). -/
def alGet {κ α : Type} [DecidableEq κ] : List (κ × α) → κ → Option α
  | [], _ => none
  | p :: rest, k => if p.1 = k then some p.2 else alGet rest k

/-- Assignment in an association list (model of `d[k] = v`): replace the
existing binding in place, or append a fresh one. -/
def alSet {κ α : Type} [DecidableEq κ] : List (κ × α) → κ → α → List (κ × α)
  | [], k, v => [(k, v)]
  | p :: rest, k, v => if p.1 = k then (k, v) :: rest else p :: alSet rest k v

/-! ## Authorization model (src/cogs/auth_cog.py)

`AuthState` carries the fields of `AuthCog` that the permission predicates
read: `owner_id` plus the `auth_data` dictionaries. -/

/-- One record of the per-guild command-override map:
`{"disabled": bool, "allowed_roles": [...], "allowed_users": [...]}`. -/
structure CommandOverride where
  disabled : Bool
  allowed_users : List Nat
  allowed_roles : List Nat
deriving DecidableEq, Repr

/-- The in-memory auth state: `self.owner_id` and the parts of
`self.auth_data` used by the permission predicates. `blacklisted` maps a
guild key (or the legacy key "_global") to a user-id list;
`command_overrides` maps a guild key (or "_global") to a map from command
name to override record. -/
structure AuthState where
  owner_id : Nat
  admins : List Nat
  moderators : List Nat
  blacklisted : List (String × List Nat)
  command_overrides : List (String × List (String × CommandOverride))
deriving Repr

/-- Embedding of `AuthCog.is_owner`. -/
def is_owner (s : AuthState) (user_id : Nat) : Bool :=
  user_id = s.owner_id

/-- Embedding of `AuthCog.is_admin`: member of `auth_data["admins"]` or owner. -/
def is_admin (s : AuthState) (user_id : Nat) : Bool :=
  user_id ∈ s.admins || is_owner s user_id

/-- Embedding of `AuthCog.is_blacklisted(user_id, guild_id=None)`, mirroring
its control flow: a concrete guild consults that guild's bucket then the
legacy "_global" bucket; `guild_id = None` additionally scans every bucket. -/
def is_blacklisted (s : AuthState) (user_id : Nat) (guild_id : Option Nat) : Bool :=
  let hitGuild : Bool :=
    match guild_id with
    | some g => decide (user_id ∈ (alGet s.blacklisted (toString g)).getD [])
    | none => false
  if hitGuild then true
  else if user_id ∈ (alGet s.blacklisted "_global").getD [] then true
  else
    match guild_id with
    | none => s.blacklisted.any (fun p => decide (user_id ∈ p.2))
    | some _ => false

/-- Embedding of `AuthCog.get_command_override`: the guild's own entry for
the command, falling back to the legacy "_global" map; `none` models the
empty dict `{}` the Python code returns when neither has an entry. -/
def get_command_override (s : AuthState) (guild_id : Nat) (command_name : String) :
    Option CommandOverride :=
  let guild_overrides := (alGet s.command_overrides (toString guild_id)).getD []
  match alGet guild_overrides command_name with
  | some o => some o
  | none => alGet ((alGet s.command_overrides "_global").getD []) command_name

/-- The hardcoded default-admin-only command set inside
`AuthCog.check_command_permission`. -/
def admin_commands : List String :=
  ["kick", "ban", "unban", "softban",
   "mute", "unmute", "muteall", "unmuteall",
   "deafen", "undeafen", "timeout", "untimeout",
   "move", "kick_voice", "clear", "purge",
   "addrole", "removerole", "addadmin", "removeadmin",
   "addmod", "removemod", "blacklist", "unblacklist",
   "whitelist", "unwhitelist", "setlimit", "voicediag"]

/-- The parts of a `commands.Context` read by `check_command_permission`:
the invoked command's qualified name, the guild id, the author's id and the
author's role ids. -/
structure Ctx where
  command : Option String
  guild : Option Nat
  author_id : Nat
  author_roles : List Nat
deriving Repr

/-- Embedding of `AuthCog.check_command_permission`. -/
def check_command_permission (s : AuthState) (ctx : Ctx) : Bool :=
  match ctx.command with
  | none => true
  | some cmd_name =>
    match ctx.guild with
    | none => true
    | some gid =>
      match get_command_override s gid cmd_name with
      | none =>
        if cmd_name ∈ admin_commands then is_admin s ctx.author_id
        else true
      | some overrides =>
        if is_owner s ctx.author_id then true
        else if overrides.disabled then false
        else if overrides.allowed_users ≠ [] ∧ ctx.author_id ∉ overrides.allowed_users then
          false
        else if overrides.allowed_roles ≠ [] ∧
            ¬ ctx.author_roles.any (fun r => decide (r ∈ overrides.allowed_roles)) then
          false
        else true

/-! ## Coalesced persistence queue (src/cogs/auth_cog.py)

State of the background save machinery: the FIFO `_save_queue`, the
deduplication set `_queued_save_ops`, the `_deleted_guilds` set, the set of
guild keys present in `auth_data` (read by `_all_guild_keys`), and a log of
the store writes (`save_global` / `save_guild`) the worker has performed. -/

/-- A save operation `(kind, guild_key)`, e.g. `("guild", "42")` or
`("global", "")`. -/
abbrev SaveOp := String × String

/-- State of the save queue and its worker. -/
structure SaveState where
  queue : List SaveOp
  queuedOps : List SaveOp
  deletedGuilds : List String
  authGuildKeys : List String
  writes : List SaveOp
deriving DecidableEq, Repr

/-- The set-based deduplication inside `AuthCog._enqueue_save`: if the
operation is already in `_queued_save_ops` it is dropped, otherwise it is
recorded and appended to the queue. -/
def enqueue_core (s : SaveState) (op : SaveOp) : SaveState :=
  if op ∈ s.queuedOps then s
  else { s with queuedOps := op :: s.queuedOps, queue := s.queue ++ [op] }

/-- Embedding of `AuthCog._enqueue_save`, including the `_deleted_guilds`
guard: a guild save for a deleted guild is revived if the guild reappeared
in `auth_data`, and silently dropped otherwise. -/
def enqueue_save (s : SaveState) (op : SaveOp) : SaveState :=
  if op.1 = "guild" ∧ op.2 ∈ s.deletedGuilds then
    if op.2 ∈ s.authGuildKeys then
      enqueue_core { s with deletedGuilds := s.deletedGuilds.filter (fun k => k ≠ op.2) } op
    else s
  else enqueue_core s op

/-- One iteration of `AuthCog._save_worker_loop`: dequeue the front
operation, perform the store write (`save_global` for kind "global";
`save_guild` for kind "guild" with a non-empty key not marked deleted),
then discard the operation from `_queued_save_ops`. -/
def worker_step (s : SaveState) : SaveState :=
  match s.queue with
  | [] => s
  | op :: rest =>
    let didWrite : Bool :=
      if op.1 = "global" then true
      else if op.1 = "guild" ∧ op.2 ≠ "" then decide (op.2 ∉ s.deletedGuilds)
      else false
    { s with
        queue := rest,
        writes := if didWrite then s.writes ++ [op] else s.writes,
        queuedOps := s.queuedOps.filter (fun o => o ≠ op) }

/-- Run `n` worker iterations. -/
def drainN : Nat → SaveState → SaveState
  | 0, s => s
  | n + 1, s => drainN n (worker_step s)

/-- Drain the whole queue (the worker runs until `_save_queue` is empty). -/
def drain (s : SaveState) : SaveState := drainN s.queue.length s

/-- Enqueue the same operation `n` times in a row. -/
def enqueue_times : Nat → SaveState → SaveOp → SaveState
  | 0, s, _ => s
  | n + 1, s, op => enqueue_times n (enqueue_save s op) op

/-! ## Voice sink (src/voice/sink.py)

`SinkState` holds `user_buffers`, `last_audio_time` and `processing`;
`HandlerPolicy` holds the `VoiceHandler` attributes that `write` reads.
Time is modelled as a rational number of seconds, PCM payloads as byte
lists. -/

/-- `VoiceSink.MIN_AUDIO_LENGTH`: minimum bytes before a segment is viable. -/
def MIN_AUDIO_LENGTH : Nat := 48000

/-- `VoiceSink.MAX_AUDIO_LENGTH`: byte cap on a speaker's buffer; the
source comment calls this "Maximum bytes (~5 sec)". -/
def MAX_AUDIO_LENGTH : Nat := 960000

/-- `VoiceSink.SILENCE_TIMEOUT`: seconds of silence before processing. -/
def SILENCE_TIMEOUT : ℚ := 1

/-- `VoiceSink.MIN_RMS`: minimum volume threshold. -/
def MIN_RMS : Nat := 150

/-- The `VoiceHandler` attributes consulted by `VoiceSink.write`.
`allowed_users` is an `Option` because no `VoiceHandler` in this
repository ever assigns that attribute: `none` models the attribute being
missing, in which case the read at sink.py:65 raises `AttributeError`
whenever it is reached. -/
structure HandlerPolicy where
  listening : Bool
  owner_only : Bool
  owner_id : Nat
  allowed_users : Option (List Nat)
  blocked_users : List Nat
deriving DecidableEq, Repr

/-- Mutable state of a `VoiceSink`: per-user buffers, per-user last audio
timestamps, and the set of users currently being processed. The unknown
speaker (`user is None`) is bucketed under id 0, as in the source. -/
structure SinkState where
  user_buffers : List (Nat × List Nat)
  last_audio_time : List (Nat × ℚ)
  processing : List Nat
deriving DecidableEq, Repr

/-- The owner-only filter in `VoiceSink.write`: skip when owner-only mode
is active, the speaker is identified, and it is not the owner. -/
def skip_owner_only (p : HandlerPolicy) (user : Option Nat) : Bool :=
  match user with
  | some u => p.owner_only && u ≠ p.owner_id
  | none => false

/-- The allow-list step at sink.py:65,
`if (not self.voice_handler.owner_only) and self.voice_handler.allowed_users:`.
`not owner_only` is evaluated first; only when it is true is the
`allowed_users` attribute read, and in this repository that attribute
never exists, so the read raises `AttributeError` — modelled as `none`.
`some true` means the frame is skipped (unidentified or not-allowed
speaker under a non-empty allow list); `some false` means fall through. -/
def skip_allowlist (p : HandlerPolicy) (user : Option Nat) : Option Bool :=
  if !p.owner_only then
    match p.allowed_users with
    | none => none
    | some allowed =>
      some (!allowed.isEmpty &&
        (match user with
         | none => true
         | some u => decide (u ∉ allowed)))
  else some false

/-- The block-list filter in `VoiceSink.write`. -/
def skip_blocked (p : HandlerPolicy) (user : Option Nat) : Bool :=
  match user with
  | some u => decide (u ∈ p.blocked_users)
  | none => false

/-- Embedding of `VoiceSink.write(user, data)` at time `now` with PCM
payload `pcm`: apply the listening/owner-only/allow-list/block-list
filters, bucket unknown speakers under id 0, initialize a buffer for a new
speaker, and either force the buffer silent when it exceeds
`MAX_AUDIO_LENGTH` (frame dropped, `last_audio_time` forced to 0) or
append the frame and stamp `now`. The result is an `Option`: `none`
models the `AttributeError` escaping from the allow-list step at
sink.py:65 (reached whenever `owner_only` is false, since the
`allowed_users` attribute is never defined in this repository). -/
def write (p : HandlerPolicy) (now : ℚ) (user : Option Nat) (pcm : List Nat)
    (s : SinkState) : Option SinkState :=
  if !p.listening then some s
  else if skip_owner_only p user then some s
  else
    match skip_allowlist p user with
    | none => none
    | some true => some s
    | some false =>
      if skip_blocked p user then some s
      else
        let uid := user.getD 0
        if pcm.isEmpty then some s
        else
          let s1 := if (alGet s.user_buffers uid).isSome then s
                    else { s with user_buffers := alSet s.user_buffers uid [] }
          if ((alGet s1.user_buffers uid).getD []).length > MAX_AUDIO_LENGTH then
            some { s1 with last_audio_time := alSet s1.last_audio_time uid 0 }
          else
            some { s1 with
                user_buffers :=
                  alSet s1.user_buffers uid (((alGet s1.user_buffers uid).getD []) ++ pcm),
                last_audio_time := alSet s1.last_audio_time uid now }

/-- The loop body of `VoiceSink.get_ready_segments`, iterating over the
snapshot of buffer keys: a speaker already marked processing is skipped; a
speaker whose buffer is long enough and silent long enough has the buffer
swapped for an empty one, is marked processing, and is appended to the
ready list. -/
def ready_loop (now : ℚ) : List Nat → List (Nat × List Nat) → SinkState →
    List (Nat × List Nat) × SinkState
  | [], ready, st => (ready, st)
  | uid :: rest, ready, st =>
    if uid ∈ st.processing then ready_loop now rest ready st
    else if ((alGet st.user_buffers uid).getD []).length > MIN_AUDIO_LENGTH ∧
        now - ((alGet st.last_audio_time uid).getD now) > SILENCE_TIMEOUT then
      ready_loop now rest (ready ++ [(uid, (alGet st.user_buffers uid).getD [])])
        { st with
            user_buffers := alSet st.user_buffers uid [],
            processing := uid :: st.processing }
    else ready_loop now rest ready st

/-- Embedding of `VoiceSink.get_ready_segments` at time `now`: returns the
list of `(user_id, audio_bytes)` pairs swapped out, and the updated state. -/
def get_ready_segments (now : ℚ) (s : SinkState) : List (Nat × List Nat) × SinkState :=
  ready_loop now (s.user_buffers.map Prod.fst) [] s

/-- Embedding of `VoiceSink.finish_processing`: discard the user from the
processing set. -/
def finish_processing (s : SinkState) (user_id : Nat) : SinkState :=
  { s with processing := s.processing.filter (fun u => u ≠ user_id) }

/-! ## RMS computation (src/voice/sink.py, `calculate_rms`) -/

/-- Reinterpret a 16-bit little-endian pair as a signed sample, as
`struct.unpack("<..h", ...)` does. -/
def toSigned16 (n : Nat) : ℤ :=
  if n < 32768 then (n : ℤ) else (n : ℤ) - 65536

/-- Decode consecutive byte pairs as little-endian signed 16-bit samples.
Bytes are naturals below 256, as guaranteed by the Python `bytes` type. -/
def bytesToInt16 : List Nat → List ℤ
  | b0 :: b1 :: rest => toSigned16 (b0 + 256 * b1) :: bytesToInt16 rest
  | _ => []

/-- Model of `struct.unpack(f"<\x7bcount\x7dh", data)`: succeeds exactly
when the buffer length matches a whole number of 16-bit samples, which is
the only way the call inside `calculate_rms` could raise. -/
def unpack16 (bs : List Nat) : Option (List ℤ) :=
  if bs.length % 2 = 0 then some (bytesToInt16 bs) else none

/-- Embedding of `VoiceSink.calculate_rms`: zero for fewer than two bytes,
zero if unpacking fails (the `except` branch), otherwise the square root
of the mean of the squared samples taken from the first `count * 2` bytes. -/
noncomputable def calculate_rms (audio_data : List Nat) : ℝ :=
  if audio_data.length / 2 = 0 then 0
  else
    match unpack16 (audio_data.take (audio_data.length / 2 * 2)) with
    | some shorts =>
      Real.sqrt ((((shorts.map (fun s => s ^ 2)).sum : ℤ) : ℝ) /
        ((audio_data.length / 2 : Nat) : ℝ))
    | none => 0

/-! ## Wake-word and voice-command parsing (src/voice/handler.py)

The regexes of `_has_trigger`, `_remove_trigger` and
`_parse_and_execute_command` are embedded as string functions, faithful on
the newline-free transcripts the speech-to-text stage produces. -/

/-- Python `\s` over the ASCII range: the whitespace class used by the
handler's regexes and by `str.strip()`. -/
def isPySpace (c : Char) : Bool :=
  c = ' ' || c = '\t' || c = '\n' || c = '\r' || c = '\x0b' || c = '\x0c'

/-- Model of `str.strip()` on a character list: remove leading and
trailing whitespace. -/
def pyStripL (s : List Char) : List Char :=
  ((s.dropWhile isPySpace).reverse.dropWhile isPySpace).reverse

/-- Model of `str.strip()`: remove leading and trailing whitespace. -/
def pyStrip (s : String) : String :=
  String.mk (pyStripL s.toList)

/-- Model of `str.lower()` on the ASCII letters appearing in transcripts. -/
def asciiLower (s : String) : String := String.mk (s.toList.map Char.toLower)

/-- Python `\w` restricted to the scripts the trigger patterns use:
ASCII alphanumerics, underscore, and the Arabic block. -/
def isWordChar (c : Char) : Bool :=
  c.isAlphanum || c = '_' || (0x600 ≤ c.toNat && c.toNat ≤ 0x6FF)

/-- Split a character list into its maximal runs of word characters. -/
def wordsAux : List Char → List Char → List (List Char)
  | [], acc => if acc.isEmpty then [] else [acc.reverse]
  | c :: cs, acc =>
    if isWordChar c then wordsAux cs (c :: acc)
    else if acc.isEmpty then wordsAux cs [] else acc.reverse :: wordsAux cs []

/-- The maximal word runs of a string; `\bw\b` matches somewhere in `s`
exactly when `w` is one of them. -/
def wordsOf (s : String) : List (List Char) := wordsAux s.toList []

/-- Match of an anchored pattern `^w\b`: the text starts with `w` and the
next character, if any, is not a word character. -/
def startsWithWordBoundary (w text : List Char) : Bool :=
  w.isPrefixOf text &&
    (match text.drop w.length with
     | [] => true
     | c :: _ => !isWordChar c)

/-- Embedding of `VoiceHandler._has_trigger`: `^manga\b`, `\bmanga\b`
anywhere, or the Arabic `^منجا\b` (on lowercased text). -/
def has_trigger (text : String) : Bool :=
  startsWithWordBoundary "manga".toList text.toList ||
  (wordsOf text).contains "manga".toList ||
  startsWithWordBoundary "منجا".toList text.toList

/-- The `[,\s]*` tail of the trigger-stripping patterns. -/
def dropTriggerTail (s : List Char) : List Char :=
  s.dropWhile (fun c => c = ',' || isPySpace c)

/-- Embedding of `VoiceHandler._remove_trigger` (on lowercased text):
substitute away a leading `manga[,\s]*`, then a leading `منجا[,\s]*`, then
strip surrounding whitespace. A non-leading occurrence of the trigger word
is left in place, because both patterns are anchored with `^`. -/
def remove_trigger (text : String) : String :=
  let cs := text.toList
  let r1 := if "manga".toList.isPrefixOf cs then dropTriggerTail (cs.drop 5) else cs
  let r2 := if "منجا".toList.isPrefixOf r1 then dropTriggerTail (r1.drop 4) else r1
  String.mk (pyStripL r2)

/-- The tagged result of `_parse_and_execute_command`'s grammar match. -/
inductive ParsedCommand where
  | leave : ParsedCommand
  | changeVoice : ParsedCommand
  | muteMember : String → ParsedCommand
  | unmuteMember : String → ParsedCommand
  | kickMember : String → ParsedCommand
  | timeoutMember : String → Nat → ParsedCommand
deriving DecidableEq, Repr

/-- The alternatives of the leave pattern `^(leave|disconnect|dc|exit|bye)`,
matched with `re.match`, i.e. against a prefix of the text. -/
def leave_words : List String := ["leave", "disconnect", "dc", "exit", "bye"]

/-- Match of the leave grammar: some alternative is a prefix of the text. -/
def matches_leave (text : List Char) : Bool :=
  leave_words.any (fun w => w.toList.isPrefixOf text)

/-- Match of `^change\s*voice`. -/
def matches_change_voice (text : List Char) : Bool :=
  "change".toList.isPrefixOf text &&
    "voice".toList.isPrefixOf ((text.drop 6).dropWhile isPySpace)

/-- Match of `^kw\s+(.+)` on newline-free text, returning the captured
argument. -/
def matchKeywordArg (kw : String) (text : List Char) : Option (List Char) :=
  if kw.toList.isPrefixOf text then
    let rest := text.drop kw.toList.length
    let ws := rest.takeWhile isPySpace
    let arg := rest.drop ws.length
    if ws.length ≥ 1 && arg.length ≥ 1 then some arg else none
  else none

/-- Model of `int()` on a non-empty run of ASCII digits. -/
def digitsToNat (ds : List Char) : Nat :=
  ds.foldl (fun acc c => acc * 10 + (c.toNat - 48)) 0

/-- Match of `^timeout\s+(\S+)(?:\s+(\d+))?`, returning the target token
and the optional minutes group. -/
def matchTimeoutArgs (text : List Char) : Option (List Char × Option Nat) :=
  if "timeout".toList.isPrefixOf text then
    let rest := text.drop 7
    let ws := rest.takeWhile isPySpace
    let rest1 := rest.drop ws.length
    let tgt := rest1.takeWhile (fun c => !isPySpace c)
    if ws.length ≥ 1 && tgt.length ≥ 1 then
      let rest2 := rest1.drop tgt.length
      let ws2 := rest2.takeWhile isPySpace
      let digits := (rest2.drop ws2.length).takeWhile Char.isDigit
      if ws2.length ≥ 1 && digits.length ≥ 1 then
        some (tgt, some (digitsToNat digits))
      else some (tgt, none)
    else none
  else none

/-- Embedding of the grammar dispatch of
`VoiceHandler._parse_and_execute_command`: lowercase and strip the input,
then try, in source order, leave, change-voice / bare voice, mute, unmute,
kick, timeout; `none` is the "not a command" result that falls through to
the chat responder. The leave branch is the one that tears the session
down and answers "Goodbye!". -/
def parse_voice_command (input : String) : Option ParsedCommand :=
  let text := pyStripL ((asciiLower input).toList)
  if matches_leave text then some ParsedCommand.leave
  else if matches_change_voice text || text = "voice".toList then
    some ParsedCommand.changeVoice
  else
    match matchKeywordArg "mute" text with
    | some t => some (ParsedCommand.muteMember (String.mk (pyStripL t)))
    | none =>
      match matchKeywordArg "unmute" text with
      | some t => some (ParsedCommand.unmuteMember (String.mk (pyStripL t)))
      | none =>
        match matchKeywordArg "kick" text with
        | some t => some (ParsedCommand.kickMember (String.mk (pyStripL t)))
        | none =>
          match matchTimeoutArgs text with
          | some (t, m) =>
            some (ParsedCommand.timeoutMember (String.mk (pyStripL t)) (m.getD 5))
          | none => none

/-! ## TTS temp-artifact lifecycle (src/services/tts_service.py)

`TTSService.speak` is embedded as an exit-path analysis over an
environment describing what its effectful collaborators do; the result
records the returned boolean and whether the generated temp file is still
on disk when the function returns. -/

/-- Outcome of `communicate.save(output_file)`. -/
inductive SaveOutcome where
  | raisesError : SaveOutcome
  | savedFile : Nat → SaveOutcome
  | noFile : SaveOutcome
deriving DecidableEq, Repr

/-- Outcome of `voice_client.play` and the playback it starts. -/
inductive PlayOutcome where
  | completes : PlayOutcome
  | callbackError : PlayOutcome
  | raisesError : PlayOutcome
deriving DecidableEq, Repr

/-- Environment of one `speak` call: whether the client is connected,
what the TTS generation does, and what playback does. -/
structure TTSEnv where
  connected : Bool
  saveResult : SaveOutcome
  playResult : PlayOutcome
deriving DecidableEq, Repr

/-- Result of one `speak` call: the returned boolean, and whether the temp
file still exists after the return. -/
structure SpeakResult where
  success : Bool
  tempFileLeft : Bool
deriving DecidableEq, Repr

/-- Whether the call generated a temp audio artifact on disk. -/
def artifactGenerated (env : TTSEnv) : Bool :=
  env.connected &&
    (match env.saveResult with
     | SaveOutcome.savedFile _ => true
     | _ => false)

/-- Embedding of `TTSService.speak`'s exit paths. Not connected: early
return, no artifact. Generation raises: the `except` branch deletes any
file. Generation leaves no file: the existence check returns early with
nothing on disk. Generation leaves an empty file: the size check returns
`False` early without deleting it. Otherwise `after_playback` deletes the
file before the completion event is awaited, on success and on playback
error alike, and a raise from `play` is cleaned up by the `except` branch. -/
def speak (env : TTSEnv) : SpeakResult :=
  if !env.connected then ⟨false, false⟩
  else
    match env.saveResult with
    | SaveOutcome.raisesError => ⟨false, false⟩
    | SaveOutcome.noFile => ⟨false, false⟩
    | SaveOutcome.savedFile 0 => ⟨false, true⟩
    | SaveOutcome.savedFile (_ + 1) =>
      match env.playResult with
      | PlayOutcome.raisesError => ⟨false, false⟩
      | PlayOutcome.callbackError => ⟨false, false⟩
      | PlayOutcome.completes => ⟨true, false⟩

/-! ## Concrete example states -/

/-- A sink state with two speakers holding just over the minimum viable
buffer, speaker 2 currently marked processing. -/
def sinkExample : SinkState :=
  { user_buffers := [(1, List.replicate 48001 0), (2, List.replicate 48001 0)],
    last_audio_time := [(1, 0), (2, 0)],
    processing := [2] }

/-- A sink state whose single speaker has accumulated just over the
`MAX_AUDIO_LENGTH` byte cap. -/
def sinkCapExample : SinkState :=
  { user_buffers := [(7, List.replicate 960001 0)],
    last_audio_time := [(7, 3)],
    processing := [] }

/-- A handler policy in owner-only listening mode with owner 7, no block
list; `allowed_users := none` reflects that the attribute is never defined
in this repository (with owner-only mode on, `write` never reads it). -/
def policyExample : HandlerPolicy :=
  { listening := true, owner_only := true, owner_id := 7,
    allowed_users := none, blocked_users := [] }

/-! ## Helper lemmas -/

theorem alGet_alSet {κ α : Type} [DecidableEq κ] (l : List (κ × α)) (k u : κ) (v : α) :
    alGet (alSet l k v) u = if k = u then some v else alGet l u := by
  induction l with
  | nil =>
    by_cases hku : k = u <;> simp [alGet, alSet, hku]
  | cons p rest ih =>
    by_cases hpk : p.1 = k
    · by_cases hku : k = u
      · simp [alSet, alGet, hpk, hku]
      · have hpu : ¬ p.1 = u := by
          rw [hpk]
          exact hku
        simp [alSet, alGet, hpk, hku, hpu]
    · by_cases hpu : p.1 = u
      · have hku : ¬ k = u := fun h => hpk (h ▸ hpu)
        have huk : ¬ u = k := fun h => hku h.symm
        simp [alSet, alGet, hpk, hpu, hku, huk]
      · simp [alSet, alGet, hpk, hpu, ih]

theorem alGet_mem {κ α : Type} [DecidableEq κ] {l : List (κ × α)} {k : κ} {v : α}
    (h : alGet l k = some v) : (k, v) ∈ l := by
  induction l with
  | nil => simp [alGet] at h
  | cons p rest ih =>
    by_cases hpk : p.1 = k
    · simp [alGet, hpk] at h
      have hpkv : p = (k, v) := by cases p; simp_all
      rw [← hpkv]
      exact List.mem_cons_self _ _
    · simp [alGet, hpk] at h
      exact List.mem_cons_of_mem _ (ih h)

theorem mem_keys_of_alGet {κ α : Type} [DecidableEq κ] {l : List (κ × α)} {k : κ} {v : α}
    (h : alGet l k = some v) : k ∈ l.map Prod.fst := by
  have := alGet_mem h
  exact List.mem_map.mpr ⟨(k, v), this, rfl⟩

/-! ## C9: blacklist scoping -/

theorem mem_bucket_of_global {s : AuthState} {u : Nat}
    (hu : u ∈ (alGet s.blacklisted "_global").getD []) :
    ∃ p ∈ s.blacklisted, u ∈ p.2 := by
  rcases hg : alGet s.blacklisted "_global" with _ | l
  · rw [hg] at hu; simp at hu
  · rw [hg] at hu
    exact ⟨("_global", l), alGet_mem hg, hu⟩

theorem is_blacklisted_none_iff (s : AuthState) (u : Nat) :
    is_blacklisted s u none = true ↔ ∃ p ∈ s.blacklisted, u ∈ p.2 := by
  constructor
  · intro h
    by_cases hglob : u ∈ (alGet s.blacklisted "_global").getD []
    · exact mem_bucket_of_global hglob
    · simp [is_blacklisted, hglob] at h
      rcases h with ⟨a, b, hab, hu⟩
      exact ⟨(a, b), hab, hu⟩
  · rintro ⟨p, hp, hup⟩
    by_cases hglob : u ∈ (alGet s.blacklisted "_global").getD []
    · simp [is_blacklisted, hglob]
    · simp [is_blacklisted, hglob]
      exact ⟨p.1, p.2, by simpa using hp, hup⟩

/-- C9: `is_blacklisted` with `guild_id = None` is true exactly when the
user appears in some bucket of the blacklist dictionary (a guild's list or
the legacy "_global" list); with a concrete guild it is exactly membership
in that guild's bucket or the "_global" bucket; hence every single-guild
hit implies a no-guild hit. -/
theorem is_blacklisted_scope (s : AuthState) (u : Nat) :
    (is_blacklisted s u none = true ↔ ∃ p ∈ s.blacklisted, u ∈ p.2) ∧
    (∀ g : Nat, is_blacklisted s u (some g) =
      (decide (u ∈ (alGet s.blacklisted (toString g)).getD []) ||
       decide (u ∈ (alGet s.blacklisted "_global").getD []))) ∧
    (∀ g : Nat, is_blacklisted s u (some g) = true → is_blacklisted s u none = true) := by
  refine ⟨is_blacklisted_none_iff s u, ?_, ?_⟩
  · intro g
    by_cases hg : u ∈ (alGet s.blacklisted (toString g)).getD []
    · simp [is_blacklisted, hg]
    · by_cases hglob : u ∈ (alGet s.blacklisted "_global").getD [] <;>
        simp [is_blacklisted, hg, hglob]
  · intro g hsome
    by_cases hg : u ∈ (alGet s.blacklisted (toString g)).getD []
    · rcases hgl : alGet s.blacklisted (toString g) with _ | l
      · rw [hgl] at hg; simp at hg
      · rw [hgl] at hg
        have hex : ∃ p ∈ s.blacklisted, u ∈ p.2 := ⟨(toString g, l), alGet_mem hgl, hg⟩
        exact (is_blacklisted_none_iff s u).mpr hex
    · by_cases hglob : u ∈ (alGet s.blacklisted "_global").getD []
      · exact (is_blacklisted_none_iff s u).mpr (mem_bucket_of_global hglob)
      · simp [is_blacklisted, hg, hglob] at hsome

/-- C9 witness: with blacklist `{"5": [9]}`, user 9 is blacklisted in
guild 5, and therefore also by the no-guild check. -/
theorem is_blacklisted_scope_witness :
    is_blacklisted ⟨1, [], [], [("5", [9])], []⟩ 9 (some 5) = true ∧
    is_blacklisted ⟨1, [], [], [("5", [9])], []⟩ 9 none = true := by
  have h5 : is_blacklisted ⟨1, [], [], [("5", [9])], []⟩ 9 (some 5) = true := by decide
  exact ⟨h5, (is_blacklisted_scope ⟨1, [], [], [("5", [9])], []⟩ 9).2.2 5 h5⟩

/-! ## C2: default conservative policy -/

/-- C2: with no override record for the invoked command, the permission
check reduces to the hardcoded default policy — for a command in the
sensitive `admin_commands` set only bot admins (the owner included, via
`is_admin`) pass, and every other command is allowed for everyone. -/
theorem default_policy_conservative (s : AuthState) (ctx : Ctx) (cmd : String) (gid : Nat)
    (hc : ctx.command = some cmd) (hg : ctx.guild = some gid)
    (hov : get_command_override s gid cmd = none) :
    check_command_permission s ctx =
      (if cmd ∈ admin_commands then is_admin s ctx.author_id else true) := by
  unfold check_command_permission
  rw [hc, hg]
  simp [hov]

/-- C2 witness: in a guild with zero configured overrides, a non-admin
user invoking "ban" is denied while the same user invoking the unlisted
command "ping" is allowed. -/
theorem default_policy_conservative_witness :
    check_command_permission ⟨1, [], [], [], []⟩ ⟨some "ban", some 10, 99, []⟩ = false ∧
    check_command_permission ⟨1, [], [], [], []⟩ ⟨some "ping", some 10, 99, []⟩ = true := by
  constructor
  · have h := default_policy_conservative ⟨1, [], [], [], []⟩ ⟨some "ban", some 10, 99, []⟩
      "ban" 10 rfl rfl (by decide)
    rw [h]
    decide
  · have h := default_policy_conservative ⟨1, [], [], [], []⟩ ⟨some "ping", some 10, 99, []⟩
      "ping" 10 rfl rfl (by decide)
    rw [h]
    decide

/-! ## C3: owner bypass -/

/-- C3: whenever an override record exists for the invoked command, the
bot owner passes the permission check no matter what the record's
disabled flag, allowed-user list and allowed-role list say. -/
theorem owner_bypass_override (s : AuthState) (ctx : Ctx) (cmd : String) (gid : Nat)
    (ov : CommandOverride)
    (hc : ctx.command = some cmd) (hg : ctx.guild = some gid)
    (hov : get_command_override s gid cmd = some ov)
    (how : is_owner s ctx.author_id = true) :
    check_command_permission s ctx = true := by
  unfold check_command_permission
  rw [hc, hg]
  simp [hov, how]

/-- C3 witness: the owner (id 1) invoking "ban", disabled for everyone by
an override, still passes. -/
theorem owner_bypass_override_witness :
    check_command_permission ⟨1, [], [], [], [("10", [("ban", ⟨true, [], []⟩)])]⟩
      ⟨some "ban", some 10, 1, []⟩ = true :=
  owner_bypass_override ⟨1, [], [], [], [("10", [("ban", ⟨true, [], []⟩)])]⟩
    ⟨some "ban", some 10, 1, []⟩ "ban" 10 ⟨true, [], []⟩ rfl rfl (by decide) (by decide)

/-! ## C1: save-queue coalescing -/

theorem enqueue_core_mem (t : SaveState) (op : SaveOp) (h : op ∈ t.queuedOps) :
    enqueue_core t op = t := by
  unfold enqueue_core
  rw [if_pos h]

theorem enqueue_save_mem (t : SaveState) (op : SaveOp) (h : op ∈ t.queuedOps) :
    (enqueue_save t op).queue = t.queue ∧
    (enqueue_save t op).queuedOps = t.queuedOps ∧
    (enqueue_save t op).writes = t.writes ∧
    ∀ x, x ∈ (enqueue_save t op).deletedGuilds → x ∈ t.deletedGuilds := by
  unfold enqueue_save
  split
  · split
    · have hr : enqueue_core
          { queue := t.queue, queuedOps := t.queuedOps,
            deletedGuilds := t.deletedGuilds.filter (fun k => k ≠ op.2),
            authGuildKeys := t.authGuildKeys, writes := t.writes } op =
          { queue := t.queue, queuedOps := t.queuedOps,
            deletedGuilds := t.deletedGuilds.filter (fun k => k ≠ op.2),
            authGuildKeys := t.authGuildKeys, writes := t.writes } :=
        enqueue_core_mem _ op h
      rw [hr]
      exact ⟨rfl, rfl, rfl, fun x hx => List.mem_of_mem_filter hx⟩
    · exact ⟨rfl, rfl, rfl, fun x hx => hx⟩
  · rw [enqueue_core_mem t op h]
    exact ⟨rfl, rfl, rfl, fun x hx => hx⟩

theorem enqueue_times_stable (n : Nat) (t : SaveState) (op : SaveOp) (h : op ∈ t.queuedOps) :
    (enqueue_times n t op).queue = t.queue ∧
    (enqueue_times n t op).queuedOps = t.queuedOps ∧
    (enqueue_times n t op).writes = t.writes ∧
    ∀ x, x ∈ (enqueue_times n t op).deletedGuilds → x ∈ t.deletedGuilds := by
  induction n generalizing t with
  | zero => exact ⟨rfl, rfl, rfl, fun x hx => hx⟩
  | succ n ih =>
    obtain ⟨e1, e2, e3, e4⟩ := enqueue_save_mem t op h
    obtain ⟨i1, i2, i3, i4⟩ := ih (enqueue_save t op) (e2 ▸ h)
    refine ⟨?_, ?_, ?_, ?_⟩
    · rw [enqueue_times, i1, e1]
    · rw [enqueue_times, i2, e2]
    · rw [enqueue_times, i3, e3]
    · intro x hx
      rw [enqueue_times] at hx
      exact e4 x (i4 x hx)

/-- C1: save-queue coalescing. While an operation `(kind, guildKey)` is in
`_queued_save_ops`, enqueuing it again changes neither the queue, nor the
dedup set, nor the performed writes; consequently, starting from a drained
queue, `n ≥ 1` enqueues of the same key followed by the worker draining
the queue perform exactly one store write for that key. -/
theorem save_coalescing (s : SaveState) (op : SaveOp) (n : Nat)
    (hn : 1 ≤ n) (hq : s.queue = []) (hnotq : op ∉ s.queuedOps)
    (hkind : op.1 = "global" ∨ (op.1 = "guild" ∧ op.2 ≠ "" ∧ op.2 ∉ s.deletedGuilds)) :
    (∀ t : SaveState, op ∈ t.queuedOps →
        (enqueue_save t op).queue = t.queue ∧
        (enqueue_save t op).queuedOps = t.queuedOps ∧
        (enqueue_save t op).writes = t.writes) ∧
    (drain (enqueue_times n s op)).writes = s.writes ++ [op] := by
  constructor
  · intro t ht
    obtain ⟨e1, e2, e3, _⟩ := enqueue_save_mem t op ht
    exact ⟨e1, e2, e3⟩
  · obtain ⟨m, rfl⟩ : ∃ m, n = m + 1 := ⟨n - 1, (Nat.succ_pred_eq_of_pos hn).symm⟩
    have hguard : ¬ (op.1 = "guild" ∧ op.2 ∈ s.deletedGuilds) := by
      rcases hkind with h | ⟨_, _, h3⟩
      · rintro ⟨hg, _⟩
        rw [h] at hg
        exact absurd hg (by decide)
      · rintro ⟨_, hmem⟩
        exact h3 hmem
    have hs1 : enqueue_save s op =
        { queue := [op], queuedOps := op :: s.queuedOps,
          deletedGuilds := s.deletedGuilds, authGuildKeys := s.authGuildKeys,
          writes := s.writes } := by
      unfold enqueue_save enqueue_core
      rw [if_neg hguard, if_neg hnotq, hq]
      rfl
    have hmem1 : op ∈ (enqueue_save s op).queuedOps := by
      rw [hs1]
      exact List.mem_cons_self _ _
    obtain ⟨t1, t2, t3, t4⟩ := enqueue_times_stable m (enqueue_save s op) op hmem1
    have htq : (enqueue_times (m + 1) s op).queue = [op] := by
      rw [enqueue_times, t1, hs1]
    have htw : (enqueue_times (m + 1) s op).writes = s.writes := by
      rw [enqueue_times, t3, hs1]
    have hdw : (if op.1 = "global" then true
        else if op.1 = "guild" ∧ op.2 ≠ "" then
          decide (op.2 ∉ (enqueue_times (m + 1) s op).deletedGuilds)
        else false) = true := by
      rcases hkind with h | ⟨h1, h2, h3⟩
      · rw [if_pos h]
      · have hne : ¬ op.1 = "global" := by
          rw [h1]
          decide
        rw [if_neg hne, if_pos ⟨h1, h2⟩, decide_eq_true_eq]
        intro hx
        rw [enqueue_times] at hx
        have hmem := t4 op.2 hx
        rw [hs1] at hmem
        exact h3 hmem
    have hlen : (enqueue_times (m + 1) s op).queue.length = 1 := by
      rw [htq]
      rfl
    unfold drain
    rw [hlen]
    show (drainN 1 (enqueue_times (m + 1) s op)).writes = s.writes ++ [op]
    rw [drainN, drainN]
    unfold worker_step
    rw [htq]
    simp only
    rw [hdw, htw]
    simp

/-- C1 witness: enqueuing `("guild", "42")` three times into a fresh state
and then draining performs exactly one write to guild 42's store. -/
theorem save_coalescing_witness :
    (drain (enqueue_times 3 ⟨[], [], [], [], []⟩ ("guild", "42"))).writes =
      [("guild", "42")] := by
  have h := (save_coalescing ⟨[], [], [], [], []⟩ ("guild", "42") 3 (by decide) rfl
    (by simp) (Or.inr ⟨rfl, by decide, by simp⟩)).2
  simpa using h

/-! ## C4: segment hand-off exclusion -/

theorem ready_loop_skips_processing (now : ℚ) (keys : List Nat) :
    ∀ (ready : List (Nat × List Nat)) (st : SinkState) (uid : Nat),
      uid ∈ st.processing →
      ∀ d, (uid, d) ∈ (ready_loop now keys ready st).1 → (uid, d) ∈ ready := by
  induction keys with
  | nil =>
    intro ready st uid h d hd
    simpa [ready_loop] using hd
  | cons k rest ih =>
    intro ready st uid h d hd
    rw [ready_loop] at hd
    by_cases hk : k ∈ st.processing
    · rw [if_pos hk] at hd
      exact ih ready st uid h d hd
    · rw [if_neg hk] at hd
      by_cases hcond : ((alGet st.user_buffers k).getD []).length > MIN_AUDIO_LENGTH ∧
          now - ((alGet st.last_audio_time k).getD now) > SILENCE_TIMEOUT
      · rw [if_pos hcond] at hd
        have hku : ¬ k = uid := fun he => hk (he ▸ h)
        have hmem := ih _ _ uid (List.mem_cons_of_mem _ h) d hd
        rcases List.mem_append.mp hmem with hin | hin
        · exact hin
        · simp at hin
          exact absurd hin.1.symm hku
      · rw [if_neg hcond] at hd
        exact ih ready st uid h d hd

theorem ready_loop_marks (now : ℚ) (keys : List Nat) :
    ∀ (ready : List (Nat × List Nat)) (st : SinkState),
      (∀ u d, (u, d) ∈ ready →
        u ∈ st.processing ∧ alGet st.user_buffers u = some []) →
      ∀ u d, (u, d) ∈ (ready_loop now keys ready st).1 →
        u ∈ (ready_loop now keys ready st).2.processing ∧
        alGet (ready_loop now keys ready st).2.user_buffers u = some [] := by
  induction keys with
  | nil =>
    intro ready st hinv u d hd
    rw [ready_loop] at hd ⊢
    exact hinv u d hd
  | cons k rest ih =>
    intro ready st hinv u d hd
    rw [ready_loop] at hd ⊢
    by_cases hk : k ∈ st.processing
    · rw [if_pos hk] at hd ⊢
      exact ih ready st hinv u d hd
    · rw [if_neg hk] at hd ⊢
      by_cases hcond : ((alGet st.user_buffers k).getD []).length > MIN_AUDIO_LENGTH ∧
          now - ((alGet st.last_audio_time k).getD now) > SILENCE_TIMEOUT
      · rw [if_pos hcond] at hd ⊢
        refine ih _ _ ?_ u d hd
        intro u2 d2 hmem
        rcases List.mem_append.mp hmem with hin | hin
        · obtain ⟨h1, h2⟩ := hinv u2 d2 hin
          have hne : ¬ k = u2 := fun he => hk (he ▸ h1)
          constructor
          · exact List.mem_cons_of_mem _ h1
          · rw [alGet_alSet, if_neg hne]
            exact h2
        · simp at hin
          obtain ⟨he, _⟩ := hin
          subst he
          constructor
          · exact List.mem_cons_self _ _
          · rw [alGet_alSet, if_pos rfl]
      · rw [if_neg hcond] at hd ⊢
        exact ih ready st hinv u d hd

theorem ready_loop_extends (now : ℚ) (keys : List Nat) :
    ∀ (ready : List (Nat × List Nat)) (st : SinkState),
      ∃ extra, (ready_loop now keys ready st).1 = ready ++ extra := by
  induction keys with
  | nil =>
    intro ready st
    exact ⟨[], by simp [ready_loop]⟩
  | cons k rest ih =>
    intro ready st
    rw [ready_loop]
    by_cases hk : k ∈ st.processing
    · rw [if_pos hk]
      exact ih ready st
    · rw [if_neg hk]
      by_cases hcond : ((alGet st.user_buffers k).getD []).length > MIN_AUDIO_LENGTH ∧
          now - ((alGet st.last_audio_time k).getD now) > SILENCE_TIMEOUT
      · rw [if_pos hcond]
        obtain ⟨extra, hex⟩ := ih
          (ready ++ [(k, (alGet st.user_buffers k).getD [])])
          { st with
              user_buffers := alSet st.user_buffers k [],
              processing := k :: st.processing }
        exact ⟨(k, (alGet st.user_buffers k).getD []) :: extra, by
          rw [hex, List.append_assoc]
          rfl⟩
      · rw [if_neg hcond]
        exact ih ready st

theorem ready_loop_eligible (now : ℚ) (keys : List Nat) :
    ∀ (ready : List (Nat × List Nat)) (st : SinkState) (uid : Nat),
      uid ∈ keys → uid ∉ st.processing →
      ((alGet st.user_buffers uid).getD []).length > MIN_AUDIO_LENGTH →
      now - ((alGet st.last_audio_time uid).getD now) > SILENCE_TIMEOUT →
      uid ∈ (ready_loop now keys ready st).1.map Prod.fst := by
  induction keys with
  | nil =>
    intro ready st uid hkey
    simp at hkey
  | cons k rest ih =>
    intro ready st uid hkey hproc hlen htime
    rw [ready_loop]
    by_cases hku : k = uid
    · subst hku
      rw [if_neg hproc, if_pos ⟨hlen, htime⟩]
      obtain ⟨extra, hex⟩ := ready_loop_extends now rest
        (ready ++ [(k, (alGet st.user_buffers k).getD [])])
        { st with
            user_buffers := alSet st.user_buffers k [],
            processing := k :: st.processing }
      rw [hex]
      refine List.mem_map.mpr ⟨(k, (alGet st.user_buffers k).getD []), ?_, rfl⟩
      simp
    · have hkrest : uid ∈ rest := by
        rcases List.mem_cons.mp hkey with he | hr
        · exact absurd he.symm hku
        · exact hr
      by_cases hk : k ∈ st.processing
      · rw [if_pos hk]
        exact ih ready st uid hkrest hproc hlen htime
      · rw [if_neg hk]
        by_cases hcond : ((alGet st.user_buffers k).getD []).length > MIN_AUDIO_LENGTH ∧
            now - ((alGet st.last_audio_time k).getD now) > SILENCE_TIMEOUT
        · rw [if_pos hcond]
          refine ih _ _ uid hkrest ?_ ?_ htime
          · intro hmem
            rcases List.mem_cons.mp hmem with he | hr
            · exact hku he.symm
            · exact hproc hr
          · rw [alGet_alSet, if_neg hku]
            exact hlen
        · rw [if_neg hcond]
          exact ih ready st uid hkrest hproc hlen htime

/-- C4: segment hand-off exclusion. A speaker marked processing is never
returned by `get_ready_segments`; a returned speaker is atomically left
with an empty buffer and marked processing in the post-state (so the same
utterance cannot be handed off twice); `finish_processing` removes the
mark, and a speaker with a buffered key, enough data and enough silence is
then eligible again on the next readiness check. -/
theorem hand_off_exclusion (s : SinkState) (now : ℚ) (uid : Nat) :
    (uid ∈ s.processing → uid ∉ (get_ready_segments now s).1.map Prod.fst) ∧
    (uid ∈ (get_ready_segments now s).1.map Prod.fst →
      uid ∈ (get_ready_segments now s).2.processing ∧
      alGet (get_ready_segments now s).2.user_buffers uid = some []) ∧
    uid ∉ (finish_processing s uid).processing ∧
    (uid ∈ (finish_processing s uid).user_buffers.map Prod.fst →
     ((alGet (finish_processing s uid).user_buffers uid).getD []).length >
        MIN_AUDIO_LENGTH →
     now - ((alGet (finish_processing s uid).last_audio_time uid).getD now) >
        SILENCE_TIMEOUT →
     uid ∈ (get_ready_segments now (finish_processing s uid)).1.map Prod.fst) := by
  refine ⟨?_, ?_, ?_, ?_⟩
  · intro hproc hmem
    unfold get_ready_segments at hmem
    rcases List.mem_map.mp hmem with ⟨p, hin, he⟩
    rcases p with ⟨u, d⟩
    cases he
    have h2 := ready_loop_skips_processing now (s.user_buffers.map Prod.fst)
      [] s u hproc d hin
    simp at h2
  · intro hmem
    unfold get_ready_segments at hmem ⊢
    rcases List.mem_map.mp hmem with ⟨p, hin, he⟩
    rcases p with ⟨u, d⟩
    cases he
    exact ready_loop_marks now (s.user_buffers.map Prod.fst) [] s
      (fun u2 d2 hd => by simp at hd) u d hin
  · simp [finish_processing]
  · intro hkey hlen htime
    unfold get_ready_segments
    exact ready_loop_eligible now
      ((finish_processing s uid).user_buffers.map Prod.fst) []
      (finish_processing s uid) uid hkey
      (by simp [finish_processing]) hlen htime

/-- C4 witness: on `sinkExample` at time 10, the processing speaker 2 is
not returned; speaker 1 is returned, ends up marked processing with an
empty buffer; and after `finish_processing` speaker 2 becomes eligible. -/
theorem hand_off_exclusion_witness :
    2 ∉ (get_ready_segments 10 sinkExample).1.map Prod.fst ∧
    (1 ∈ (get_ready_segments 10 sinkExample).2.processing ∧
      alGet (get_ready_segments 10 sinkExample).2.user_buffers 1 = some []) ∧
    2 ∉ (finish_processing sinkExample 2).processing ∧
    2 ∈ (get_ready_segments 10 (finish_processing sinkExample 2)).1.map Prod.fst := by
  have hfp1 : finish_processing sinkExample 1 = sinkExample := rfl
  have hkey1 : 1 ∈ (finish_processing sinkExample 1).user_buffers.map Prod.fst := by
    show (1 : Nat) ∈ [1, 2]
    decide
  have hlen1 : ((alGet (finish_processing sinkExample 1).user_buffers 1).getD []).length >
      MIN_AUDIO_LENGTH := by
    show (List.replicate 48001 (0 : Nat)).length > MIN_AUDIO_LENGTH
    rw [List.length_replicate]
    decide
  have htime1 : (10 : ℚ) -
      ((alGet (finish_processing sinkExample 1).last_audio_time 1).getD 10) >
      SILENCE_TIMEOUT := by
    show (10 : ℚ) - 0 > SILENCE_TIMEOUT
    rw [SILENCE_TIMEOUT]
    norm_num
  have h41 := (hand_off_exclusion sinkExample 10 1).2.2.2 hkey1 hlen1 htime1
  rw [hfp1] at h41
  have hkey2 : 2 ∈ (finish_processing sinkExample 2).user_buffers.map Prod.fst := by
    show (2 : Nat) ∈ [1, 2]
    decide
  have hlen2 : ((alGet (finish_processing sinkExample 2).user_buffers 2).getD []).length >
      MIN_AUDIO_LENGTH := by
    show (List.replicate 48001 (0 : Nat)).length > MIN_AUDIO_LENGTH
    rw [List.length_replicate]
    decide
  have htime2 : (10 : ℚ) -
      ((alGet (finish_processing sinkExample 2).last_audio_time 2).getD 10) >
      SILENCE_TIMEOUT := by
    show (10 : ℚ) - 0 > SILENCE_TIMEOUT
    rw [SILENCE_TIMEOUT]
    norm_num
  refine ⟨?_, (hand_off_exclusion sinkExample 10 1).2.1 h41,
    (hand_off_exclusion sinkExample 10 2).2.2.1,
    (hand_off_exclusion sinkExample 10 2).2.2.2 hkey2 hlen2 htime2⟩
  exact (hand_off_exclusion sinkExample 10 2).1 (by show (2 : Nat) ∈ [2]; decide)

/-! ## C5: buffer size guard -/

theorem write_allowlist_missing_raises (p : HandlerPolicy) (now : ℚ) (user : Option Nat)
    (pcm : List Nat) (s : SinkState)
    (hl : p.listening = true) (h2 : skip_owner_only p user = false)
    (ho : p.owner_only = false) (ha : p.allowed_users = none) :
    write p now user pcm s = none := by
  have h3 : skip_allowlist p user = none := by
    unfold skip_allowlist
    rw [ho, ha]
    rfl
  unfold write
  rw [hl, h2, h3]
  simp

theorem write_cap_hit (p : HandlerPolicy) (now : ℚ) (user : Option Nat)
    (pcm : List Nat) (s : SinkState) (buf : List Nat)
    (hl : p.listening = true) (h2 : skip_owner_only p user = false)
    (h3 : skip_allowlist p user = some false) (h4 : skip_blocked p user = false)
    (h5 : pcm ≠ []) (h6 : alGet s.user_buffers (user.getD 0) = some buf)
    (h7 : buf.length > MAX_AUDIO_LENGTH) :
    write p now user pcm s =
      some { s with last_audio_time := alSet s.last_audio_time (user.getD 0) 0 } := by
  obtain ⟨a, l, rfl⟩ : ∃ a l, pcm = a :: l := by
    cases pcm with
    | nil => exact absurd rfl h5
    | cons a l => exact ⟨a, l, rfl⟩
  unfold write
  rw [hl, h2, h3, h4]
  simp only [Bool.not_true, Bool.false_eq_true, if_false, List.isEmpty_cons, h6,
    Option.isSome_some, if_true, Option.getD_some]
  rw [if_pos h7]

/-- C5 (amended): the sink enforces a hard byte cap of
`MAX_AUDIO_LENGTH = 960000` bytes (about 5 seconds of the 48 kHz 16-bit
stereo stream, per the source's own comment) — on every call that
completes without raising (which requires owner-only mode, since with
owner-only off the read of the never-defined `allowed_users` attribute
raises first), a frame arriving while the speaker's buffer already
exceeds the cap is not appended and the buffer's last-frame time is
forced to 0, so the next readiness check at any time past the silence
timeout flushes the buffer and no buffer grows without bound. -/
theorem size_guard_force_flush (p : HandlerPolicy) (now now2 : ℚ) (user : Option Nat)
    (pcm : List Nat) (s : SinkState) (buf : List Nat)
    (hl : p.listening = true) (h2 : skip_owner_only p user = false)
    (h3 : skip_allowlist p user = some false) (h4 : skip_blocked p user = false)
    (h5 : pcm ≠ []) (h6 : alGet s.user_buffers (user.getD 0) = some buf)
    (h7 : buf.length > MAX_AUDIO_LENGTH) :
    write p now user pcm s =
      some { s with last_audio_time := alSet s.last_audio_time (user.getD 0) 0 } ∧
    MAX_AUDIO_LENGTH = 960000 ∧
    (user.getD 0 ∉ s.processing → now2 > SILENCE_TIMEOUT →
      user.getD 0 ∈ (get_ready_segments now2
        { s with last_audio_time := alSet s.last_audio_time (user.getD 0) 0 }).1.map
        Prod.fst) := by
  have hw := write_cap_hit p now user pcm s buf hl h2 h3 h4 h5 h6 h7
  refine ⟨hw, rfl, ?_⟩
  intro hproc hnow
  unfold get_ready_segments
  refine ready_loop_eligible now2 _ []
    { s with last_audio_time := alSet s.last_audio_time (user.getD 0) 0 }
    (user.getD 0) ?_ hproc ?_ ?_
  · exact mem_keys_of_alGet h6
  · show ((alGet s.user_buffers (user.getD 0)).getD []).length > MIN_AUDIO_LENGTH
    rw [h6]
    exact lt_trans (by decide) h7
  · show now2 - ((alGet (alSet s.last_audio_time (user.getD 0) 0)
      (user.getD 0)).getD now2) > SILENCE_TIMEOUT
    rw [alGet_alSet, if_pos rfl]
    simpa using hnow

/-- C5 counterexample: in owner-only listening mode (the mode in which
`write` completes without raising), a buffer of 960001 accumulated bytes
is about 5 seconds of the 48 kHz 16-bit stereo stream (192000 bytes per
second) and far below the 3840000 bytes that 20 seconds occupy, yet the
owner's incoming frame is already dropped and the buffer forced silent —
so the cap is not "approximately 20 seconds" of audio. -/
theorem size_guard_twenty_seconds_false :
    960001 < 20 * 192000 ∧
    MAX_AUDIO_LENGTH < 20 * 192000 ∧
    (List.replicate 960001 (0 : Nat)).length > MAX_AUDIO_LENGTH ∧
    write policyExample 100 (some 7) [1] sinkCapExample =
      some { sinkCapExample with
               last_audio_time := alSet sinkCapExample.last_audio_time 7 0 } ∧
    alGet (alSet sinkCapExample.last_audio_time 7 0) 7 = some 0 := by
  have hw := write_cap_hit policyExample 100 (some 7) [1] sinkCapExample
    (List.replicate 960001 0) rfl rfl rfl rfl (by simp) rfl
    (by rw [List.length_replicate]; decide)
  refine ⟨by decide, by decide, by rw [List.length_replicate]; decide, hw, ?_⟩
  rw [alGet_alSet, if_pos rfl]

/-- C5 witness: the force-flush theorem applied to `sinkCapExample`: the
over-cap frame from the owner is not appended (and no exception is
raised), and at the next readiness check (time 50) speaker 7's buffer is
flushed. -/
theorem size_guard_force_flush_witness :
    write policyExample 100 (some 7) [1] sinkCapExample =
      some { sinkCapExample with
               last_audio_time := alSet sinkCapExample.last_audio_time 7 0 } ∧
    7 ∈ (get_ready_segments 50
      { sinkCapExample with
          last_audio_time := alSet sinkCapExample.last_audio_time 7 0 }).1.map
      Prod.fst := by
  have h := size_guard_force_flush policyExample 100 50 (some 7) [1] sinkCapExample
    (List.replicate 960001 0) rfl rfl rfl rfl (by simp) rfl
    (by rw [List.length_replicate]; decide)
  refine ⟨h.1, h.2.2 ?_ ?_⟩
  · show (7 : Nat) ∉ ([] : List Nat)
    simp
  · rw [SILENCE_TIMEOUT]
    norm_num

/-! ## C8: unidentified speakers in owner-only mode -/

/-- C8: in owner-only mode a frame whose speaker cannot be identified
(`user is None`) passes the owner-only filter — and, because
`not owner_only` short-circuits, the broken `allowed_users` read is never
reached, so no exception is raised either — and is buffered under user
id 0 with its arrival time stamped, provided the sink is listening, the
frame is non-empty and bucket 0 is not over the size cap. -/
theorem unknown_speaker_not_dropped (p : HandlerPolicy) (now : ℚ) (pcm : List Nat)
    (s : SinkState)
    (hl : p.listening = true) (ho : p.owner_only = true) (hpcm : pcm ≠ [])
    (hcap : ¬ ((alGet s.user_buffers 0).getD []).length > MAX_AUDIO_LENGTH) :
    (write p now none pcm s).map (fun s2 => alGet s2.user_buffers 0) =
      some (some (((alGet s.user_buffers 0).getD []) ++ pcm)) ∧
    (write p now none pcm s).map (fun s2 => alGet s2.last_audio_time 0) =
      some (some now) := by
  obtain ⟨a, l, rfl⟩ : ∃ a l, pcm = a :: l := by
    cases pcm with
    | nil => exact absurd rfl hpcm
    | cons a l => exact ⟨a, l, rfl⟩
  have h2 : skip_owner_only p none = false := rfl
  have h3 : skip_allowlist p none = some false := by
    unfold skip_allowlist
    rw [ho]
    rfl
  have h4 : skip_blocked p none = false := rfl
  unfold write
  rw [hl, h2, h3, h4]
  simp only [Bool.not_true, Bool.false_eq_true, if_false, List.isEmpty_cons,
    Option.getD_none]
  rcases hbs : alGet s.user_buffers 0 with _ | buf
  · rw [hbs] at hcap
    simp only [hbs, Option.isSome_none, Bool.false_eq_true, if_false]
    have hget : alGet (alSet s.user_buffers 0 ([] : List Nat)) 0 = some [] := by
      rw [alGet_alSet, if_pos rfl]
    simp only [hget, Option.getD_some, List.length_nil]
    rw [if_neg (by decide)]
    simp only [Option.map_some', Option.some.injEq]
    constructor
    · rw [alGet_alSet, if_pos rfl]
      simp
    · rw [alGet_alSet, if_pos rfl]
  · rw [hbs] at hcap
    simp only [Option.getD_some] at hcap
    simp only [hbs, Option.isSome_some, if_true, Option.getD_some]
    rw [if_neg hcap]
    simp only [Option.map_some', Option.some.injEq]
    constructor
    · rw [alGet_alSet, if_pos rfl]
    · rw [alGet_alSet, if_pos rfl]

/-- C8 witness: with owner-only mode on (owner 5) and the `allowed_users`
attribute missing, a frame from an unidentified speaker raises nothing
and lands in bucket 0. -/
theorem unknown_speaker_not_dropped_witness :
    (write ⟨true, true, 5, none, []⟩ 2 none [9, 9] ⟨[], [], []⟩).map
      (fun s2 => alGet s2.user_buffers 0) = some (some [9, 9]) := by
  have h1 := (unknown_speaker_not_dropped ⟨true, true, 5, none, []⟩ 2 [9, 9] ⟨[], [], []⟩
    rfl rfl (by simp) (by decide)).1
  simp only [alGet, Option.getD_none, List.nil_append] at h1
  exact h1

/-! ## C10: totality of calculate_rms -/

/-- C10: `calculate_rms` is total: it returns a non-negative value on every
byte string, returns 0 when fewer than two bytes are supplied, and the
`struct.unpack` call on the truncated even-length slice can never fail (so
the `except` fallback to 0 is the only other exit and no exception
escapes). -/
theorem calculate_rms_total (audio_data : List Nat) :
    0 ≤ calculate_rms audio_data ∧
    (audio_data.length < 2 → calculate_rms audio_data = 0) ∧
    (unpack16 (audio_data.take (audio_data.length / 2 * 2))).isSome = true := by
  have hsome : (unpack16 (audio_data.take (audio_data.length / 2 * 2))).isSome = true := by
    unfold unpack16
    have hlen : (audio_data.take (audio_data.length / 2 * 2)).length =
        audio_data.length / 2 * 2 := by
      rw [List.length_take]
      exact min_eq_left (Nat.div_mul_le_self _ _)
    rw [hlen, Nat.mul_mod_left]
    simp
  refine ⟨?_, ?_, hsome⟩
  · unfold calculate_rms
    by_cases hc : audio_data.length / 2 = 0
    · rw [if_pos hc]
    · rw [if_neg hc]
      rcases hu : unpack16 (audio_data.take (audio_data.length / 2 * 2)) with _ | shorts
      all_goals first
        | exact Real.sqrt_nonneg _
        | exact le_refl 0
  · intro hlt
    have hc : audio_data.length / 2 = 0 := Nat.div_eq_of_lt hlt
    unfold calculate_rms
    rw [if_pos hc]

/-- C10 witness: a single stray byte decodes to zero samples and RMS 0,
and the unpack of its even-length slice succeeds. -/
theorem calculate_rms_total_witness :
    calculate_rms [7] = 0 ∧
    (unpack16 ([7].take (List.length [7] / 2 * 2))).isSome = true :=
  ⟨(calculate_rms_total [7]).2.1 (by decide), (calculate_rms_total [7]).2.2⟩

/-! ## C6: leave-grammar precedence -/

/-- C6 counterexample: the transcript "leave please manga style" contains
the trigger word, survives trigger stripping unchanged (only a leading
trigger is removed), and its stripped remainder DOES match the leave
grammar, because the pattern `^(leave|disconnect|dc|exit|bye)` is matched
against a prefix of the remainder — so the utterance IS treated as a
leave command, contrary to the claim. -/
theorem leave_precedence_counterexample :
    has_trigger "leave please manga style" = true ∧
    remove_trigger "leave please manga style" = "leave please manga style" ∧
    parse_voice_command (remove_trigger "leave please manga style") =
      some ParsedCommand.leave := by
  decide

/-- C6 (amended): grammar matching runs on the trigger-stripped remainder
and the leave grammar takes precedence over the chat fallback: "manga
leave" strips to "leave", which matches the leave grammar (session
teardown, "Goodbye!"); and "leave please manga style" — whose leading
"leave" survives stripping because only a leading trigger word is removed
— is likewise treated as a leave command rather than chat. -/
theorem leave_grammar_stripped :
    remove_trigger "manga leave" = "leave" ∧
    parse_voice_command "leave" = some ParsedCommand.leave ∧
    has_trigger "manga leave" = true ∧
    parse_voice_command (remove_trigger "leave please manga style") =
      some ParsedCommand.leave := by
  decide

/-! ## C7: TTS temp-artifact cleanup -/

/-- C7 counterexample: when the client is connected and generation
produces an empty (zero-byte) file, `speak` returns `False` early with
the generated artifact still on disk. -/
theorem speak_cleanup_counterexample :
    artifactGenerated ⟨true, SaveOutcome.savedFile 0, PlayOutcome.completes⟩ = true ∧
    (speak ⟨true, SaveOutcome.savedFile 0, PlayOutcome.completes⟩).tempFileLeft = true := by
  decide

/-- C7 (amended): the temp artifact is deleted on the success, playback
error and exception exit paths; the single exit that returns with the
artifact still on disk is the early return for a generated-but-empty
file. -/
theorem speak_cleanup_characterization (env : TTSEnv) :
    (speak env).tempFileLeft = true ↔
      env.connected = true ∧ env.saveResult = SaveOutcome.savedFile 0 := by
  rcases env with ⟨c, sv, pl⟩
  cases c
  · simp [speak]
  · cases sv with
    | raisesError => simp [speak]
    | noFile => simp [speak]
    | savedFile n =>
      cases n with
      | zero => simp [speak]
      | succ m => cases pl <;> simp [speak]

end DiscordBot
